import Mathlib

/- Verification of the pyadics repository (integer.py): p-adic integers
represented as replayable lazy digit streams.

Modelling conventions (shallow embedding of the Python source):

* A single traversal of one digit generator is modelled by `PStream`:
  the finite list `ds` of digits the generator yields, together with an
  `err` flag.  `err = false` means the generator ends by raising
  `StopIteration` after its digits (the normal end of a finite stream);
  `err = true` means that after yielding `ds` the next pull raises a
  non-`StopIteration` exception (`UnboundLocalError` in `__add__`'s
  generator, `NameError` in the `Integer_P_Adic` branch of `__mul__`).
  Truly unbounded streams (`stable_p_adic`) are outside this model; every
  claim below is about constructor-built or operator-built values, whose
  single-traversal behaviour the model captures exactly.

* `PAdic` mirrors `Integer_P_Adic`: a base `p` together with the digit
  stream that one invocation of its `digit_factory` produces.

* The sharing-sensitive behaviour of the source (each arithmetic operator
  calls `self.digit_factory()` once, at operator time, and all later
  invocations of the derived factory iterate that one shared generator)
  is modelled separately by a small stateful generator machine (`GenSt`,
  `Store`, `pullG`) used for the replay-invariant and shift-round-trip
  scenarios, where the shared mutable cursors are observable.  -/

namespace PyAdics

/-- One traversal of a digit generator: the digits it yields, and whether it
ends with an exception (`err = true`) instead of `StopIteration`. -/
structure PStream where
  ds : List ℕ
  err : Bool
deriving DecidableEq

/-- Embedding of `Integer_P_Adic`: a base and the digit stream produced by one
invocation of its `digit_factory`. -/
structure PAdic where
  p : ℕ
  stream : PStream
deriving DecidableEq

/-- Fuel-indexed base expansion: mirrors the `while r > 0: yield r % p; r = r // p`
loop of `p_adic_from_integer`.  Fuel `n` suffices for every base `p ≥ 2`. -/
def fromIntDigitsAux (p : ℕ) : ℕ → ℕ → List ℕ
  | 0, _ => []
  | fuel + 1, r => if r = 0 then [] else r % p :: fromIntDigitsAux p fuel (r / p)

/-- Digit list of `p_adic_from_integer(n, p)`: least-significant digit first,
finite, with the implicit zero tail left implicit. -/
def fromIntDigits (n p : ℕ) : List ℕ := fromIntDigitsAux p n n

/-- Stream produced by one invocation of `p_adic_from_integer(n, p)`'s factory. -/
def fromIntStream (n p : ℕ) : PStream := ⟨fromIntDigits n p, false⟩

/-- Embedding of `p_adic_from_integer`. -/
def p_adic_from_integer (n p : ℕ) : PAdic := ⟨p, fromIntStream n p⟩

/-- Embedding of `p_adic_zero`: its generator yields the single digit 0. -/
def p_adic_zero (p : ℕ) : PAdic := ⟨p, ⟨[0], false⟩⟩

/-- Embedding of `p_adic_one`: its generator yields the single digit 1. -/
def p_adic_one (p : ℕ) : PAdic := ⟨p, ⟨[1], false⟩⟩

/-- Tail of the zip once the x generator has ended normally: the remaining y
digits are paired with the fill value 0, and the y generator's own end
behaviour (exception or `StopIteration`) closes the zip. -/
def zipFillLeft : List ℕ → Bool → List (ℕ × ℕ) × Bool
  | [], ye => ([], ye)
  | y :: ys, ye =>
    let r := zipFillLeft ys ye
    ((0, y) :: r.1, r.2)

/-- Tail of the zip once the y generator has ended normally: the remaining x
digits are paired with the fill value 0, and the x generator's own end
behaviour (exception or `StopIteration`) closes the zip. -/
def zipFillRight : List ℕ → Bool → List (ℕ × ℕ) × Bool
  | [], xe => ([], xe)
  | x :: xs, xe =>
    let r := zipFillRight xs xe
    ((x, 0) :: r.1, r.2)

/-- Embedding of `itertools.zip_longest(xg, yg, fillvalue=0)` over two
traversals: the pairs the zip yields, and whether iterating it ends with an
exception propagated from an operand generator.  `zip_longest` pulls the first
iterator, then the second; an iterator that raised `StopIteration` earlier is
replaced by the fill value 0; when both have ended normally the zip itself
raises `StopIteration` (err component `false`). -/
def zipLE : List ℕ → Bool → List ℕ → Bool → List (ℕ × ℕ) × Bool
  | [], true, _, _ => ([], true)
  | [], false, ys, ye => zipFillLeft ys ye
  | _ :: _, _, [], true => ([], true)
  | x :: xs, xe, [], false =>
    let r := zipFillRight xs xe
    ((x, 0) :: r.1, r.2)
  | x :: xs, xe, y :: ys, ye =>
    let r := zipLE xs xe ys ye
    ((x, y) :: r.1, r.2)

/-- Pairs and error flag of `zip_longest` over two streams. -/
def zipLongestE (x y : PStream) : List (ℕ × ℕ) × Bool :=
  zipLE x.ds x.err y.ds y.err

/-- Loop body of `p_adic_equal`: up to `numDigits` pulls of the zipped pairs;
a pull past the end of the pair list models `next(combined)` raising (either
`StopIteration` or a propagated exception), which the bare `except:` turns
into `return True`; a differing pair returns `False` immediately. -/
def pEqLoop : List (ℕ × ℕ) → ℕ → Bool
  | _, 0 => true
  | [], _ + 1 => true
  | (a, b) :: r, n + 1 => if a ≠ b then false else pEqLoop r n

/-- Embedding of `p_adic_equal(x, y, num_digits=20)`.  A total function: the
source's bare `except:` converts every exception raised by `next(combined)`
into `return True`, so the comparator itself never raises. -/
def p_adic_equal (x y : PAdic) (numDigits : ℕ := 20) : Bool :=
  pEqLoop (zipLongestE x.stream y.stream).1 numDigits

/-- Embedding of `Integer_P_Adic.__eq__`: `p_adic_equal` at the default window
of 20 digits. -/
def pyEq (x y : PAdic) : Bool := p_adic_equal x y

/-- Embedding of `Integer_P_Adic.__ne__`: negation of `p_adic_equal` at a
window of 1000 digits. -/
def pyNe (x y : PAdic) : Bool := !(p_adic_equal x y 1000)

/-- Stream of one invocation of the factory built by `__lshift__` (`n ≥ 1`):
`n` zeros, then the digits of the captured parent traversal; an exception in
the parent propagates.  (For `n = 0` the source returns `self` unchanged and
for `n < 0` it delegates to `__rshift__`; the claims below only use `n = 2`.) -/
def lshiftStream (n : ℕ) (x : PStream) : PStream :=
  ⟨List.replicate n 0 ++ x.ds, x.err⟩

/-- Stream of one invocation of the factory built by `__rshift__` (`n ≥ 0`):
the loop `for x in xg` skips the first `n` digits and yields the rest; when
the parent ends normally the trailing `yield 0` runs, but an exception in the
parent propagates before it. -/
def rshiftStream (n : ℕ) (x : PStream) : PStream :=
  if x.err then ⟨x.ds.drop n, true⟩ else ⟨x.ds.drop n ++ [0], false⟩

/-- Stream of one invocation of the factory built by `__invert__`:
the digit-wise complement `p - d - 1` of the parent traversal. -/
def invertStream (p : ℕ) (x : PStream) : PStream :=
  ⟨x.ds.map (fun d => p - d - 1), x.err⟩

/-- Stream of one invocation of `sum_factory` built by `__add__`.  In the
source, `sum_factory` sets `carry = 0` and `gen` then assigns `carry = s // p`
without a `nonlocal` declaration, which makes `carry` a local variable of
`gen`; the first execution of `s = dx + dy + carry` therefore raises
`UnboundLocalError`.  Consequently the generator yields no digit and raises
unless the zipped pair sequence is empty and error-free (both operands
exhausted immediately), in which case the `for` body never runs and the
generator ends normally with no digits. -/
def addStream (x y : PStream) : PStream :=
  let z := zipLongestE x y
  if z.1 = [] ∧ z.2 = false then ⟨[], false⟩ else ⟨[], true⟩

/-- Stream of one invocation of the factory built by `__neg__`, which is
`~self + p_adic_one(p)`: complement, then `__add__` with the one-digit
stream `[1]`. -/
def negStream (p : ℕ) (x : PStream) : PStream :=
  addStream (invertStream p x) (p_adic_one p).stream

/-- Digit loop of the `sum_factory` built by `__radd__`: there `carry = 0` is
inside `gen`, so the carry genuinely persists across digit positions of one
invocation — this is also exactly the digit rule the specification states for
addition.  The loop ends with the zipped pairs; a trailing carry is dropped. -/
def raddDigits (p : ℕ) : List (ℕ × ℕ) → ℕ → List ℕ
  | [], _ => []
  | (dx, dy) :: rest, carry =>
    ((dx + dy + carry) % p) :: raddDigits p rest ((dx + dy + carry) / p)

/-- Stream of one invocation of the `sum_factory` built by `__radd__`. -/
def raddStream (p : ℕ) (x y : PStream) : PStream :=
  let z := zipLongestE x y
  ⟨raddDigits p z.1 0, z.2⟩

/-- Embedding of `Integer_P_Adic.__radd__`.  The outer `Option` models the
`ValueError` raised on mismatched bases (`none` = raised).  The body result is
the pair (returned value, `self` after the call): the source assigns
`self.digit_factory = sum_factory` — mutating its operand — and falls off the
end of the method, returning `None`. -/
def radd (self other : PAdic) : Option (Option PAdic × PAdic) :=
  if self.p ≠ other.p then none
  else some (none, ⟨self.p, raddStream self.p self.stream other.stream⟩)

/-- Digit loop of `prod_factory` in the integer branch of `__mul__`: a single
pass over the operand traversal with a running carry (`carry = 0` is inside
`gen`, so this loop is carry-correct); the loop ends when the operand stream
ends, dropping any trailing carry. -/
def scalarDigits (p c : ℕ) : List ℕ → ℕ → List ℕ
  | [], _ => []
  | x :: xs, carry =>
    ((carry + x * c) % p) :: scalarDigits p c xs ((carry + x * c) / p)

/-- Stream of one invocation of `prod_factory` (integer branch of `__mul__`);
an exception in the operand traversal propagates through the `for` loop. -/
def scalarStream (p c : ℕ) (x : PStream) : PStream :=
  ⟨scalarDigits p c x.ds 0, x.err⟩

/-- Stream of one invocation of `product_factory` in the `Integer_P_Adic`
branch of `__mul__`.  In that branch of the source neither `xg` nor `yg` is
ever assigned (`xg` is assigned only in the integer branch, which returns
before this code; `yg` is assigned nowhere in `__mul__`), so the first
`next(xg)` in `gen` raises `NameError`, caught by neither `except
StopIteration` handler: the generator raises before yielding any digit. -/
def mulPAdicStream (_x _y : PStream) : PStream := ⟨[], true⟩

/-- Branches of the integer case of `__mul__` for a non-negative multiplier:
`other == 0` returns `p_adic_zero(p)`'s stream; `other > p` (strict) reduces
to general multiplication by `p_adic_from_integer(other, p)`; otherwise the
single-pass scalar loop runs. -/
def mulIntStreamPos (p : ℕ) (x : PStream) (c : ℕ) : PStream :=
  if c = 0 then (p_adic_zero p).stream
  else if p < c then mulPAdicStream x (fromIntStream c p)
  else scalarStream p c x

/-- Embedding of the integer branch of `Integer_P_Adic.__mul__`: for
`other < 0` the source computes `(-self) * (-other)`, i.e. the same branch
logic applied to `__neg__`'s stream and the absolute value. -/
def mulIntStream (p : ℕ) (x : PStream) (c : ℤ) : PStream :=
  if c < 0 then mulIntStreamPos p (negStream p x) (-c).toNat
  else mulIntStreamPos p x c.toNat

/-- Digit-collecting loop of `Integer_P_Adic.__str__`: `for n, x in
enumerate(...)` appends the digit while `n ≤ 20` (so up to 21 digits, indices
0..20) and, when an item with index 21 arrives, sets the ellipsis marker and
breaks without appending it.  A stream that ends (or raises — the bare
`except:` resets the marker to `""`) before index 21 leaves the marker empty
either way, so the `err` flag of the stream does not affect the output. -/
def strCollect : List ℕ → ℕ → List ℕ × String
  | [], _ => ([], "")
  | d :: rest, n =>
    if n > 20 then ([], "...")
    else
      let r := strCollect rest (n + 1)
      (d :: r.1, r.2)

/-- Rendering of collected digits by `__str__`: decimal representation of each
digit, joined in reverse production order (most-significant first). -/
def renderDigits (ds : List ℕ) : String :=
  String.join ((ds.reverse).map Nat.repr)

/-- Final string assembly of `__str__`: marker, reversed digits, base tag. -/
def renderPAdicStr (marker : String) (ds : List ℕ) (p : ℕ) : String :=
  marker ++ renderDigits ds ++ " (base " ++ Nat.repr p ++ ")"

/-- Embedding of `Integer_P_Adic.__str__` on one fresh traversal. -/
def pyStr (x : PAdic) : String :=
  let r := strCollect x.stream.ds 0
  renderPAdicStr r.2 r.1 x.p

/- Stateful generator machine.  Each arithmetic operator of the source calls
`self.digit_factory()` exactly once, when the operator itself runs, and the
factory it returns closes over that one generator object; every invocation of
the derived factory then iterates the same shared generator, whose cursor
advances for all of them at once.  The machine below models the generator
objects alive in a scenario as a list (`Store`) of mutable states, indexed by
allocation order; a child generator holds the index of the parent it pulls
from. -/

/-- State of one live generator object.
`fromIntG r p`: a generator of `p_adic_from_integer`'s `number_generator`,
with `r` the remaining value of the loop variable.
`lshiftG m parent`: a generator of a `left_shift_factory`, still owing `m`
leading zeros before it forwards digits pulled from `parent`.
`rshiftG m parent post`: a generator of a `right_shift_factory`, still having
`m` digits of `parent` to skip; `post` records that the trailing `yield 0`
after the `for` loop has already run, so the generator is exhausted. -/
inductive GenSt where
  | fromIntG (r p : ℕ)
  | lshiftG (m : ℕ) (parent : ℕ)
  | rshiftG (m : ℕ) (parent : ℕ) (post : Bool)
deriving DecidableEq

/-- Store of live generator objects, indexed by allocation order. -/
abbrev Store := List GenSt

/-- Pull one item from generator `i`: `none` models `StopIteration` (pulling
an already exhausted generator keeps returning `none`, as in Python).  The
fuel only bounds the nested delegation and skip loops; the concrete scenarios
below use far less than the fuel supplied. -/
def pullG : ℕ → Store → ℕ → Option ℕ × Store
  | 0, σ, _ => (none, σ)
  | fuel + 1, σ, i =>
    match σ[i]? with
    | none => (none, σ)
    | some (.fromIntG r p) =>
      if r = 0 then (none, σ)
      else (some (r % p), σ.set i (.fromIntG (r / p) p))
    | some (.lshiftG m par) =>
      if m = 0 then pullG fuel σ par
      else (some 0, σ.set i (.lshiftG (m - 1) par))
    | some (.rshiftG m par post) =>
      if post then (none, σ)
      else
        match pullG fuel σ par with
        | (some d, σ1) =>
          if m = 0 then (some d, σ1)
          else pullG fuel (σ1.set i (.rshiftG (m - 1) par false)) i
        | (none, σ1) => (some 0, σ1.set i (.rshiftG m par true))

/-- One pull of `zip_longest(xg, yg, fillvalue=0)` in the stateful model:
the x generator is pulled first, then the y generator; `none` models the
zip raising `StopIteration` because both are exhausted. -/
def zipNextG (fuel : ℕ) (σ : Store) (ix iy : ℕ) : Option (ℕ × ℕ) × Store :=
  let rx := pullG fuel σ ix
  let ry := pullG fuel rx.2 iy
  match rx.1, ry.1 with
  | none, none => (none, ry.2)
  | ox, oy => (some (ox.getD 0, oy.getD 0), ry.2)

/-- Stateful run of `p_adic_equal`'s loop on the generators `ix` and `iy`. -/
def pEqualG (fuel : ℕ) : ℕ → Store → ℕ → ℕ → Bool
  | 0, _, _, _ => true
  | n + 1, σ, ix, iy =>
    match zipNextG fuel σ ix iy with
    | (none, _) => true
    | (some (a, b), σ1) => if a ≠ b then false else pEqualG fuel n σ1 ix iy

/-- Stateful run of the digit-collecting loop of `__str__` on generator `i`,
starting at enumerate index `n`: returns the collected digits, the ellipsis
marker, and the store after the pulls. -/
def collectG : ℕ → Store → ℕ → ℕ → List ℕ × String × Store
  | 0, σ, _, _ => ([], "", σ)
  | fuel + 1, σ, i, n =>
    match pullG 100 σ i with
    | (none, σ1) => ([], "", σ1)
    | (some d, σ1) =>
      if n > 20 then ([], "...", σ1)
      else
        let r := collectG fuel σ1 i (n + 1)
        (d :: r.1, r.2.1, r.2.2)

/-- Stateful run of `__str__` on generator `i` of a value with base `p`. -/
def strG (σ : Store) (i p : ℕ) : String × Store :=
  let r := collectG 30 σ i 0
  (renderPAdicStr r.2.1 r.1 p, r.2.2)

/-- Scenario for the replay invariant: `L = p_adic_from_integer(5, 3) << 2`,
then `str(L)` twice.  Allocation order of generator objects:
index 0 — `xg = self.digit_factory()`, executed once when `__lshift__` ran,
and captured by `left_shift_factory`;
index 1 — the generator returned by the first factory invocation inside the
first `str(L)` (it forwards the shared parent 0 after two zeros);
index 2 — the generator returned by the second factory invocation inside the
second `str(L)`, forwarding the same shared parent 0. -/
def formatTwiceLshift : String × String :=
  let σ0 : Store := [.fromIntG 5 3]
  let σ1 : Store := σ0 ++ [.lshiftG 2 0]
  let r1 := strG σ1 1 3
  let σ2 : Store := r1.2 ++ [.lshiftG 2 0]
  let r2 := strG σ2 2 3
  (r1.1, r2.1)

/-- Scenario for the shift round trip on a derived operand:
`x = p_adic_from_integer(5, 3) << 1`, then `p_adic_equal((x << 2) >> 2, x, 20)`.
Allocation order of generator objects:
index 0 — the `p_adic_from_integer` generator captured when `x` was built;
index 1 — `x.digit_factory()` captured when `x << 2` ran (one zero, then the
shared parent 0);
index 2 — `(x << 2).digit_factory()` captured when `... >> 2` ran (two zeros,
then parent 1);
index 3 — the fresh stream `p_adic_equal` takes from `((x << 2) >> 2)`'s
factory (skip two digits of parent 2, then forward);
index 4 — the fresh stream `p_adic_equal` takes from `x`'s factory (one zero,
then the shared parent 0 — the same parent generator index 1 forwards). -/
def shiftRoundTripShared : Bool :=
  let σ : Store :=
    [.fromIntG 5 3, .lshiftG 1 0, .lshiftG 2 1, .rshiftG 2 2 false, .lshiftG 1 0]
  pEqualG 100 20 σ 3 4

/- Helper lemmas. -/

/-- Unfolding of one comparison step of `p_adic_equal`'s loop. -/
theorem pEqLoop_cons_succ (a b : ℕ) (l : List (ℕ × ℕ)) (m : ℕ) :
    pEqLoop ((a, b) :: l) (m + 1) = true ↔ a = b ∧ pEqLoop l m = true := by
  by_cases h : a = b <;> simp [pEqLoop, h]

/-- Splitting a bounded quantifier at position 0. -/
theorem forall_lt_succ_shift (P : ℕ → Prop) (n : ℕ) :
    (∀ k, k < n + 1 → P k) ↔ P 0 ∧ ∀ k, k < n → P (k + 1) := by
  constructor
  · intro h
    exact ⟨h 0 (Nat.succ_pos n), fun k hk => h (k + 1) (Nat.succ_lt_succ hk)⟩
  · rintro ⟨h0, hs⟩ k hk
    cases k with
    | zero => exact h0
    | succ j => exact hs j (Nat.lt_of_succ_lt_succ hk)

/-- Unfolding of the zip against an empty error-free y traversal. -/
theorem zipLE_nil_right (xs : List ℕ) :
    zipLE xs false [] false = zipFillRight xs false := by
  cases xs <;> simp [zipLE, zipFillLeft, zipFillRight]

/-- Characterization of the comparator loop on two error-free traversals:
it answers `true` exactly when the zero-padded digits agree at every position
inside the window. -/
theorem pEqLoop_zipLE_spec :
    ∀ (n : ℕ) (xs ys : List ℕ),
      pEqLoop (zipLE xs false ys false).1 n = true ↔
        ∀ k, k < n → xs.getD k 0 = ys.getD k 0 := by
  intro n
  induction n with
  | zero => intro xs ys; simp [pEqLoop]
  | succ m ih =>
    intro xs ys
    rw [forall_lt_succ_shift]
    cases xs with
    | nil =>
      cases ys with
      | nil => simp [zipLE, zipFillLeft, pEqLoop]
      | cons y ys' =>
        have hz : (zipLE [] false (y :: ys') false).1
            = (0, y) :: (zipLE [] false ys' false).1 := by
          simp [zipLE, zipFillLeft]
        rw [hz, pEqLoop_cons_succ, ih [] ys']
        simp
    | cons x xs' =>
      cases ys with
      | nil =>
        have hz : (zipLE (x :: xs') false [] false).1
            = (x, 0) :: (zipLE xs' false [] false).1 := by
          rw [zipLE_nil_right xs']
          simp [zipLE]
        rw [hz, pEqLoop_cons_succ, ih xs' []]
        simp
      | cons y ys' =>
        have hz : (zipLE (x :: xs') false (y :: ys') false).1
            = (x, y) :: (zipLE xs' false ys' false).1 := by
          simp [zipLE]
        rw [hz, pEqLoop_cons_succ, ih xs' ys']
        simp

/-- Appending one zero to a finite digit list does not change any zero-padded
digit. -/
theorem getD_append_single_zero :
    ∀ (xs : List ℕ) (k : ℕ), (xs ++ [0]).getD k 0 = xs.getD k 0 := by
  intro xs
  induction xs with
  | nil => intro k; cases k <;> simp
  | cons x xs' ih =>
    intro k
    cases k with
    | zero => simp
    | succ j => simpa using ih j

/-- Closed form of the digit-collecting loop of `__str__`: starting at
enumerate index `n` it keeps the next `21 - n` digits and sets the ellipsis
marker exactly when a further digit exists. -/
theorem strCollect_spec :
    ∀ (ds : List ℕ) (n : ℕ),
      strCollect ds n
        = (ds.take (21 - n), if 21 - n < ds.length then "..." else "") := by
  intro ds
  induction ds with
  | nil => intro n; simp [strCollect]
  | cons d rest ih =>
    intro n
    by_cases h : n > 20
    · have h0 : 21 - n = 0 := by omega
      simp [strCollect, h, h0]
    · have h1 : 21 - n = (20 - n) + 1 := by omega
      have h2 : 21 - (n + 1) = 20 - n := by omega
      simp only [strCollect, h, if_false, ih (n + 1), h2, h1,
        List.take_succ_cons, List.length_cons, Nat.succ_lt_succ_iff]

/- Claim theorems. -/

/-- C1: the replay invariant fails in the code: `__lshift__` calls
`self.digit_factory()` once, at operator time, and every invocation of the
returned factory iterates that one shared generator.  For
`L = p_adic_from_integer(5, 3) << 2`, formatting the results of two
successive factory invocations yields `"1200 (base 3)"` and then
`"00 (base 3)"` — the second stream is not value-equivalent to the first,
and the two texts differ. -/
theorem lshift_factory_not_replayable :
    formatTwiceLshift = ("1200 (base 3)", "00 (base 3)") ∧
      formatTwiceLshift.1 ≠ formatTwiceLshift.2 := by decide

/-- C2: the addition digit rule fails in the code: `sum_factory` declares
`carry = 0` outside `gen` but `gen` assigns `carry` without `nonlocal`, so
`carry` is an uninitialized local of `gen` and the first digit raises
`UnboundLocalError` — for `p_adic_from_integer(1,3) + p_adic_from_integer(1,3)`
the stream yields no digit and raises, while the claimed rule (which the
carry-in-`gen` loop of `__radd__` implements) would yield the digit
`(1 + 1 + 0) mod 3 = 2`. -/
theorem add_carry_unbound_local :
    addStream (p_adic_from_integer 1 3).stream (p_adic_from_integer 1 3).stream
      = ⟨[], true⟩ ∧
      raddDigits 3
        (zipLongestE (p_adic_from_integer 1 3).stream
          (p_adic_from_integer 1 3).stream).1 0 = [2] := by decide

/-- C3: the scalar multiply small case fails in the code: the `prod_factory`
loop of the integer branch of `__mul__` ends when the operand stream ends and
drops the trailing carry, so `p_adic_from_integer(3,5) * 4` produces the digit
stream `[2]` (the value 2), not `[2,2]` (the value 12), and `p_adic_equal`
against `p_adic_from_integer(12,5)` at the default depth returns false. -/
theorem scalar_multiply_small_case_drops_carry :
    mulIntStream 5 (p_adic_from_integer 3 5).stream 4 = ⟨[2], false⟩ ∧
      p_adic_equal ⟨5, mulIntStream 5 (p_adic_from_integer 3 5).stream 4⟩
        (p_adic_from_integer 12 5) 20 = false := by decide

/-- C4 counterexample: at `c = p` the claim fails: the source's threshold is
`other > p` strict, so `p_adic_from_integer(1,3) * 3` runs the single-pass
scalar loop, yielding the digit stream `[0]` (trailing carry dropped), while
`multiply(x, fromInteger(3,3))` yields no digit at all (its generator raises
`NameError` on the first pull): the two streams are not position-wise equal. -/
theorem scalar_reduction_at_base_counterexample :
    mulIntStream 3 ⟨[1], false⟩ 3 = ⟨[0], false⟩ ∧
      mulPAdicStream ⟨[1], false⟩ (fromIntStream 3 3) = ⟨[], true⟩ ∧
      mulIntStream 3 ⟨[1], false⟩ 3 ≠ mulPAdicStream ⟨[1], false⟩ (fromIntStream 3 3) := by
  decide

/-- C4 amended: for every integer `c` strictly greater than the base `p`, the
integer branch of `__mul__` returns exactly `multiply(x, fromInteger(c, p))`,
so the two digit streams coincide; at `c = p` the scalar loop runs instead and
its stream can differ. -/
theorem scalar_reduction_strictly_above_base (p : ℕ) (x : PStream) (c : ℤ)
    (h : (p : ℤ) < c) :
    mulIntStream p x c = mulPAdicStream x (fromIntStream c.toNat p) := by
  have hc0 : ¬ c < 0 := by omega
  have hcp : p < c.toNat := by omega
  have hne : ¬ c.toNat = 0 := by omega
  simp only [mulIntStream, mulIntStreamPos, if_neg hc0, if_neg hne, if_pos hcp]

/-- Witness for C4 amended at `p = 3`, `c = 4`, `x = [1]`. -/
theorem scalar_reduction_strictly_above_base_witness :
    ((3 : ℕ) : ℤ) < 4 ∧
      mulIntStream 3 ⟨[1], false⟩ 4
        = mulPAdicStream ⟨[1], false⟩ (fromIntStream (4 : ℤ).toNat 3) :=
  ⟨by decide, scalar_reduction_strictly_above_base 3 ⟨[1], false⟩ 4 (by decide)⟩

/-- C5: operand immutability fails in the code: `__radd__` assigns
`self.digit_factory = sum_factory`, replacing its operand's factory, and falls
off the end of the method, returning `None` instead of a new `PAdicInteger`.
For `self = p_adic_from_integer(2,3)` and `other = p_adic_from_integer(1,3)`
the call returns `None` and leaves `self` with the sum's digit stream `[0]`,
no longer its original stream `[2]`. -/
theorem radd_mutates_self_returns_none :
    radd (p_adic_from_integer 2 3) (p_adic_from_integer 1 3)
      = some (none, ⟨3, ⟨[0], false⟩⟩) ∧
      (⟨3, ⟨[0], false⟩⟩ : PAdic) ≠ p_adic_from_integer 2 3 := by decide

/-- C6: the comparator contract holds: `p_adic_equal` (a total function — its
bare `except:` turns every exception from `next(combined)` into `return True`,
so it never raises) answers `true` exactly when the zero-padded digits of the
two traversals agree at every position before `numDigits`, and hence `false`
exactly when some such position differs; in particular it answers `true` when
both streams end before the window is exhausted. -/
theorem comparator_contract (x y : PAdic) (n : ℕ)
    (hx : x.stream.err = false) (hy : y.stream.err = false) :
    p_adic_equal x y n = true ↔
      ∀ k, k < n → x.stream.ds.getD k 0 = y.stream.ds.getD k 0 := by
  simp only [p_adic_equal, zipLongestE, hx, hy]
  exact pEqLoop_zipLE_spec n x.stream.ds y.stream.ds

/-- Witness for C6 on two concrete finite streams whose window exceeds both. -/
theorem comparator_contract_witness :
    p_adic_equal ⟨3, ⟨[1, 2], false⟩⟩ ⟨3, ⟨[1, 2, 0, 0], false⟩⟩ 20 = true :=
  (comparator_contract ⟨3, ⟨[1, 2], false⟩⟩ ⟨3, ⟨[1, 2, 0, 0], false⟩⟩ 20 rfl rfl).mpr
    (by decide)

/-- C7 counterexample: the round trip fails for a derived operand: for
`x = p_adic_from_integer(5,3) << 1` the comparison
`p_adic_equal((x << 2) >> 2, x, 20)` returns `false`, because the two
invocations of `x`'s factory made during the scenario forward the same shared
parent generator: the comparison sees the pair `(2, 1)` at position 1. -/
theorem shift_round_trip_shared_generator_counterexample :
    shiftRoundTripShared = false := by decide

/-- C7 amended: for every value whose factory yields a fresh independent digit
stream on each invocation — as constructor-built values do — the round trip
holds: right-shifting the left-shifted stream returns the original digits plus
one trailing zero, which is prefix-equal to the original at depth 20. -/
theorem shift_round_trip_constructor_streams (p : ℕ) (xs : List ℕ) :
    p_adic_equal ⟨p, rshiftStream 2 (lshiftStream 2 ⟨xs, false⟩)⟩
      ⟨p, ⟨xs, false⟩⟩ 20 = true := by
  have h1 : rshiftStream 2 (lshiftStream 2 ⟨xs, false⟩) = ⟨xs ++ [0], false⟩ := by
    simp [rshiftStream, lshiftStream]
  rw [h1]
  simp only [p_adic_equal, zipLongestE]
  exact (pEqLoop_zipLE_spec 20 (xs ++ [0]) xs).mpr fun k _ => getD_append_single_zero xs k

/-- C8 counterexample: for `p_adic_from_integer(2 ^ 20, 2)`, whose stream has
exactly 21 digits, a 21st digit exists but `__str__` prepends no ellipsis and
renders all 21 collected digits, contradicting the claimed bounds of
`maxDigits = 20` rendered digits and an ellipsis exactly when a 21st digit
exists. -/
theorem formatter_renders_21_digits_counterexample :
    (fromIntDigits (2 ^ 20) 2).length = 21 ∧
      ¬ ((strCollect (fromIntDigits (2 ^ 20) 2) 0).2 = "..." ∧
        (strCollect (fromIntDigits (2 ^ 20) 2) 0).1.length ≤ 20) := by decide

/-- C8 amended: `__str__` pulls at most 22 digits from one fresh stream,
renders the at most 21 collected digits (indices 0..20) most-significant-first,
prepends the ellipsis marker exactly when a 22nd digit exists, and appends the
base annotation. -/
theorem formatter_truncation_amended (x : PAdic) :
    pyStr x = (if 21 < x.stream.ds.length then "..." else "")
      ++ renderDigits (x.stream.ds.take 21) ++ " (base " ++ Nat.repr x.p ++ ")" := by
  simp only [pyStr, strCollect_spec, renderPAdicStr, Nat.sub_zero]

/-- C9: `p_adic_from_integer(5, 3)` produces exactly the digit stream `[2, 1]`
(least-significant first), and formatting it yields `"12 (base 3)"`. -/
theorem from_integer_round_trip :
    fromIntDigits 5 3 = [2, 1] ∧ pyStr (p_adic_from_integer 5 3) = "12 (base 3)" := by
  decide

/-- C10: `__eq__` compares 20 digits while `__ne__` compares 1000, so for
`x = p_adic_zero(3)` and `y = p_adic_from_integer(3 ^ 20, 3)` — which agree on
their first 20 digits and differ at position 20 — both `x == y` and `x != y`
return `true`. -/
theorem eq_ne_not_complements :
    pyEq (p_adic_zero 3) (p_adic_from_integer (3 ^ 20) 3) = true ∧
      pyNe (p_adic_zero 3) (p_adic_from_integer (3 ^ 20) 3) = true := by decide

end PyAdics
